import Mathlib

/-!
Verification of the availability-aggregation engine of `bot.py` (a group
scheduling assistant).  The Python source is shallowly embedded: JSON values
become the inductive type `Json`, Python `dict`s become insertion-ordered
association lists, floating-point scores become `ℚ` (every weight is 1.0 or
0.5, so all accumulated values are dyadic rationals that IEEE doubles
represent and add exactly at these magnitudes), and code that can raise or
return `None` returns `Option`/`Except` values.
-/

namespace Meetbot

/-- A JSON value, as produced by `json.load` / `request.json()` in the source.
Python `json` objects have string keys; insertion order is preserved, so an
object is an ordered association list. -/
inductive Json where
  | null : Json
  | bool : Bool → Json
  | num : ℚ → Json
  | str : String → Json
  | arr : List Json → Json
  | obj : List (String × Json) → Json

mutual

def beqJson : Json → Json → Bool
  | .null, .null => true
  | .bool a, .bool b => a == b
  | .num a, .num b => a == b
  | .str a, .str b => a == b
  | .arr xs, .arr ys => beqJsonList xs ys
  | .obj fs, .obj gs => beqJsonFields fs gs
  | _, _ => false

def beqJsonList : List Json → List Json → Bool
  | [], [] => true
  | x :: xs, y :: ys => beqJson x y && beqJsonList xs ys
  | _, _ => false

def beqJsonFields : List (String × Json) → List (String × Json) → Bool
  | [], [] => true
  | (k, v) :: fs, (k2, v2) :: gs => k == k2 && beqJson v v2 && beqJsonFields fs gs
  | _, _ => false

end

mutual

theorem beqJson_eq : ∀ a b, beqJson a b = true → a = b
  | .null, .null, _ => rfl
  | .bool a, .bool b, h => by simp [beqJson] at h; simp [h]
  | .num a, .num b, h => by simp [beqJson] at h; simp [h]
  | .str a, .str b, h => by simp [beqJson] at h; simp [h]
  | .arr xs, .arr ys, h => by
      simp only [beqJson] at h
      exact congrArg Json.arr (beqJsonList_eq xs ys h)
  | .obj fs, .obj gs, h => by
      simp only [beqJson] at h
      exact congrArg Json.obj (beqJsonFields_eq fs gs h)

theorem beqJsonList_eq : ∀ xs ys, beqJsonList xs ys = true → xs = ys
  | [], [], _ => rfl
  | x :: xs, y :: ys, h => by
      simp only [beqJsonList, Bool.and_eq_true] at h
      rw [beqJson_eq x y h.1, beqJsonList_eq xs ys h.2]

theorem beqJsonFields_eq : ∀ fs gs, beqJsonFields fs gs = true → fs = gs
  | [], [], _ => rfl
  | (k, v) :: fs, (k2, v2) :: gs, h => by
      simp only [beqJsonFields, Bool.and_eq_true] at h
      obtain ⟨⟨hk, hv⟩, ht⟩ := h
      rw [beqJson_eq v v2 hv, beqJsonFields_eq fs gs ht, eq_of_beq hk]

end

mutual

theorem beqJson_refl : ∀ a, beqJson a a = true
  | .null => rfl
  | .bool a => by simp [beqJson]
  | .num a => by simp [beqJson]
  | .str a => by simp [beqJson]
  | .arr xs => by simp only [beqJson]; exact beqJsonList_refl xs
  | .obj fs => by simp only [beqJson]; exact beqJsonFields_refl fs

theorem beqJsonList_refl : ∀ xs, beqJsonList xs xs = true
  | [] => rfl
  | x :: xs => by
      simp only [beqJsonList, Bool.and_eq_true]
      exact ⟨beqJson_refl x, beqJsonList_refl xs⟩

theorem beqJsonFields_refl : ∀ fs, beqJsonFields fs fs = true
  | [] => rfl
  | (k, v) :: fs => by
      simp only [beqJsonFields, Bool.and_eq_true]
      exact ⟨⟨by simp, beqJson_refl v⟩, beqJsonFields_refl fs⟩

end

instance : DecidableEq Json := fun a b =>
  if h : beqJson a b = true then isTrue (beqJson_eq a b h)
  else isFalse (fun he => h (he ▸ beqJson_refl a))

/-! ### Python dict primitives

Python `dict`s preserve insertion order; lookup returns the value of the
(unique) matching key, assignment replaces the value in place or appends a
fresh key at the end, and `del` removes the key.  On association lists whose
keys are unique these operations coincide with first-match versions below. -/

/-- `d[k]` / `d.get(k)`: first value stored under key `k`. -/
def objGet : List (String × Json) → String → Option Json
  | [], _ => none
  | (k', v) :: rest, k => if k' = k then some v else objGet rest k

/-- `d[k] = v`: replace the value at `k` in place, or append `(k, v)`. -/
def objSet : List (String × Json) → String → Json → List (String × Json)
  | [], k, v => [(k, v)]
  | (k', v') :: rest, k, v =>
      if k' = k then (k, v) :: rest else (k', v') :: objSet rest k v

/-- `del d[k]`: remove the entry stored under key `k`. -/
def objDel : List (String × Json) → String → List (String × Json)
  | [], _ => []
  | (k', v) :: rest, k => if k' = k then rest else (k', v) :: objDel rest k

/-- `data.get(k)` on a JSON request body (`None` when the key is absent).
Claims only exercise object-shaped bodies; a non-dict body raises
`AttributeError` in Python and is outside every claim's domain. -/
def jget : Json → String → Option Json
  | .obj fs, k => objGet fs k
  | _, _ => none

/-- `data.get(k, default)`. -/
def jgetD (d : Json) (k : String) (dflt : Json) : Json :=
  (jget d k).getD dflt

/-- Python truthiness (`if not x`) on JSON values. -/
def pyFalsy : Json → Bool
  | .null => true
  | .bool b => !b
  | .num q => q = 0
  | .str s => s = ""
  | .arr xs => xs.isEmpty
  | .obj fs => fs.isEmpty

/-- Python `str(x)` for the scalar JSON values the endpoints pass through it
(`str(None) = "None"`, booleans capitalised, integers in decimal).  The
`repr`-style rendering of composite values is not exercised by any claim and
is modelled as the empty string. -/
def pyStr : Json → String
  | .str s => s
  | .null => "None"
  | .bool true => "True"
  | .bool false => "False"
  | .num q => toString q
  | .arr _ => ""
  | .obj _ => ""

/-! ### Aggregation engine (`generate_heatmap_image`, bot.py lines 58-85)

`slot_scores` is a Python dict from slot key to float score, built with
`slot_scores[slot] = slot_scores.get(slot, 0) + weight`.  Slot keys coming
from list-shaped submissions can be arbitrary JSON scalars, so the score
table is keyed by `Json`. -/

/-- `slot_scores[slot] = slot_scores.get(slot, 0) + w`: add `w` to the score
of `slot`, keeping dict insertion order (new keys are appended). -/
def bump : List (Json × ℚ) → Json → ℚ → List (Json × ℚ)
  | [], k, w => [(k, w)]
  | (k', v) :: rest, k, w =>
      if k' = k then (k', v + w) :: rest else (k', v) :: bump rest k w

/-- `slot_scores.get(k, 0)`. -/
def scoreOf (scores : List (Json × ℚ)) (k : Json) : ℚ :=
  match scores with
  | [] => 0
  | (k', v) :: rest => if k' = k then v else scoreOf rest k

/-- `weight = 1.0 if type_val == 'yes' else 0.5` (bot.py line 79): any
response other than the exact string `"yes"` counts 0.5. -/
def slotWeight (v : Json) : ℚ :=
  if v = .str "yes" then 1 else 1 / 2

/-- List-shaped submission: every element gets weight 1.0 (lines 67-69). -/
def addList (scores : List (Json × ℚ)) (xs : List Json) : List (Json × ℚ) :=
  xs.foldl (fun sc slot => bump sc slot 1) scores

/-- Map-shaped submission: each `(slot, response)` entry adds its weight
(lines 77-80).  Python dict keys are strings. -/
def addMap (scores : List (Json × ℚ)) (gs : List (String × Json)) :
    List (Json × ℚ) :=
  gs.foldl (fun sc g => bump sc (Json.str g.1) (slotWeight g.2)) scores

/-- One iteration of the aggregation loop (lines 66-80): a list adds 1.0 per
element; a dict is first unwrapped through its `"slots"` key if present, then
treated as a list or as a slot-to-response map; anything else contributes
nothing. -/
def addSubmission (scores : List (Json × ℚ)) (uv : Json) : List (Json × ℚ) :=
  match uv with
  | .arr xs => addList scores xs
  | .obj fs =>
      match (match objGet fs "slots" with
             | some inner => inner
             | none => Json.obj fs) with
      | .arr xs => addList scores xs
      | .obj gs => addMap scores gs
      | _ => scores
  | _ => scores

/-- The full aggregation fold over `votes.values()` (lines 63-80). -/
def aggregateScores (votes : List (String × Json)) : List (Json × ℚ) :=
  (votes.map Prod.snd).foldl addSubmission []

/-- `total_users = len(votes)` (line 59). -/
def totalParticipants (votes : List (String × Json)) : ℕ :=
  votes.length

/-- Weight a list-shaped submission gives slot `k`: 1.0 per occurrence. -/
def listContrib (xs : List Json) (k : Json) : ℚ :=
  (xs.map fun x => if x = k then (1 : ℚ) else 0).sum

/-- Weight a map-shaped submission gives slot `k`. -/
def mapContrib (gs : List (String × Json)) (k : Json) : ℚ :=
  (gs.map fun g => if Json.str g.1 = k then slotWeight g.2 else 0).sum

/-- Total weight one raw submission contributes to slot `k`, following the
same shape dispatch as `addSubmission`. -/
def contrib (uv : Json) (k : Json) : ℚ :=
  match uv with
  | .arr xs => listContrib xs k
  | .obj fs =>
      match (match objGet fs "slots" with
             | some inner => inner
             | none => Json.obj fs) with
      | .arr xs => listContrib xs k
      | .obj gs => mapContrib gs k
      | _ => 0
  | _ => 0

/-! ### Basic score lemmas -/

theorem scoreOf_bump (scores : List (Json × ℚ)) (slot : Json) (w : ℚ)
    (k : Json) :
    scoreOf (bump scores slot w) k
      = scoreOf scores k + (if slot = k then w else 0) := by
  induction scores with
  | nil =>
      by_cases h : slot = k <;> simp [bump, scoreOf, h]
  | cons p rest ih =>
      obtain ⟨k', v⟩ := p
      by_cases h1 : k' = slot
      · subst h1
        by_cases h2 : k' = k <;> simp [bump, scoreOf, h2]
      · by_cases h2 : k' = k
        · subst h2
          have : ¬ slot = k' := fun h => h1 h.symm
          simp [bump, scoreOf, h1, this]
        · simp [bump, scoreOf, h1, h2, ih]

theorem scoreOf_addList (scores : List (Json × ℚ)) (xs : List Json)
    (k : Json) :
    scoreOf (addList scores xs) k = scoreOf scores k + listContrib xs k := by
  induction xs generalizing scores with
  | nil => simp [addList, listContrib]
  | cons x xs ih =>
      simp only [addList, List.foldl_cons] at *
      rw [ih, scoreOf_bump]
      simp only [listContrib, List.map_cons, List.sum_cons]
      ring

theorem scoreOf_addMap (scores : List (Json × ℚ))
    (gs : List (String × Json)) (k : Json) :
    scoreOf (addMap scores gs) k = scoreOf scores k + mapContrib gs k := by
  induction gs generalizing scores with
  | nil => simp [addMap, mapContrib]
  | cons g gs ih =>
      simp only [addMap, List.foldl_cons] at *
      rw [ih, scoreOf_bump]
      simp only [mapContrib, List.map_cons, List.sum_cons]
      ring

theorem scoreOf_addSubmission (scores : List (Json × ℚ)) (uv : Json)
    (k : Json) :
    scoreOf (addSubmission scores uv) k = scoreOf scores k + contrib uv k := by
  cases uv with
  | arr xs => simp [addSubmission, contrib, scoreOf_addList]
  | obj fs =>
      simp only [addSubmission, contrib]
      cases objGet fs "slots" with
      | none =>
          simp only
          rw [scoreOf_addMap]
      | some inner =>
          cases inner <;> simp [scoreOf_addList, scoreOf_addMap]
  | null => simp [addSubmission, contrib]
  | bool b => simp [addSubmission, contrib]
  | num q => simp [addSubmission, contrib]
  | str s => simp [addSubmission, contrib]

theorem scoreOf_foldl (vs : List Json) (init : List (Json × ℚ)) (k : Json) :
    scoreOf (vs.foldl addSubmission init) k
      = scoreOf init k + (vs.map fun v => contrib v k).sum := by
  induction vs generalizing init with
  | nil => simp
  | cons v vs ih =>
      simp only [List.foldl_cons, List.map_cons, List.sum_cons]
      rw [ih, scoreOf_addSubmission]
      ring

/-- The aggregated score of a slot is the sum, over participants, of the
weight their submission gives that slot. -/
theorem scoreOf_aggregate (votes : List (String × Json)) (k : Json) :
    scoreOf (aggregateScores votes) k
      = (votes.map fun p => contrib p.2 k).sum := by
  unfold aggregateScores
  rw [scoreOf_foldl, List.map_map]
  simp [scoreOf, Function.comp_def]

/-! ### Projections (`generate_heatmap_image`, bot.py lines 85-139) -/

/-- Python string comparison on the underlying characters: lexicographic by
code point.  (Defined from scratch so that concrete instances evaluate.) -/
def charListLe : List Char → List Char → Bool
  | [], _ => true
  | _ :: _, [] => false
  | a :: as, b :: bs =>
      if a = b then charListLe as bs else decide (a.toNat < b.toNat)

/-- Python `s1 <= s2` on strings. -/
def strLe (a b : String) : Bool :=
  charListLe a.data b.data

/-- `strLe` as a relation, for the sorting lemmas. -/
def strLeP (a b : String) : Prop :=
  strLe a b = true

instance : DecidableRel strLeP := fun a b => by
  unfold strLeP; infer_instance

theorem charListLe_total (as bs : List Char) :
    charListLe as bs = true ∨ charListLe bs as = true := by
  induction as generalizing bs with
  | nil => left; rfl
  | cons a as ih =>
      cases bs with
      | nil => right; rfl
      | cons b bs =>
          by_cases hab : a = b
          · subst hab
            rcases ih bs with h | h
            · left; simpa [charListLe] using h
            · right; simpa [charListLe] using h
          · have hba : ¬ b = a := fun he => hab he.symm
            rcases Nat.lt_or_ge a.toNat b.toNat with h | h
            · left; simp [charListLe, hab, h]
            · have hne : a.toNat ≠ b.toNat := by
                intro he
                exact hab (Char.ext (UInt32.ext he))
              have : b.toNat < a.toNat := lt_of_le_of_ne h (fun he => hne he.symm)
              right; simp [charListLe, hba, this]

theorem charListLe_trans {as bs cs : List Char}
    (h1 : charListLe as bs = true) (h2 : charListLe bs cs = true) :
    charListLe as cs = true := by
  induction as generalizing bs cs with
  | nil => rfl
  | cons a as ih =>
      cases bs with
      | nil => simp [charListLe] at h1
      | cons b bs =>
          cases cs with
          | nil => simp [charListLe] at h2
          | cons c cs =>
              by_cases hab : a = b
              · subst hab
                simp only [charListLe, if_pos rfl] at h1
                by_cases hbc : a = c
                · subst hbc
                  simp only [charListLe, if_pos rfl] at h2 ⊢
                  exact ih h1 h2
                · simp only [charListLe, if_neg hbc] at h2 ⊢
                  exact h2
              · simp only [charListLe, if_neg hab, decide_eq_true_eq] at h1
                by_cases hbc : b = c
                · subst hbc
                  simp [charListLe, hab, h1]
                · simp only [charListLe, if_neg hbc, decide_eq_true_eq] at h2
                  have hac : a.toNat < c.toNat := Nat.lt_trans h1 h2
                  have hane : ¬ a = c := by
                    intro he
                    subst he
                    exact Nat.lt_irrefl _ hac
                  simp [charListLe, hane, hac]

instance : IsTotal String strLeP :=
  ⟨fun a b => charListLe_total a.data b.data⟩

instance : IsTrans String strLeP :=
  ⟨fun _ _ _ h1 h2 => charListLe_trans h1 h2⟩

/-- The slot keys as strings, when every key is a string.  Python `sorted`
on the key view succeeds (lexicographically) for homogeneous string keys and
raises `TypeError` on a mixed-type key set; no claim reaches the mixed
case. -/
def keyStrings : List (Json × ℚ) → Option (List String)
  | [] => some []
  | (Json.str s, _) :: rest => (keyStrings rest).map (s :: ·)
  | _ => none

/-- `sorted(slot_scores.keys())` (line 85, recomputed as `dates` on line 93):
ascending lexicographic order of the string keys. -/
def sorted_slots (scores : List (Json × ℚ)) : Option (List String) :=
  (keyStrings scores).map (List.insertionSort strLeP)

/-- The ranked output sequence: the sorted keys paired with their scores
(`scores = [slot_scores[d] for d in dates]`, line 94). -/
def orderedScores (scores : List (Json × ℚ)) : Option (List (String × ℚ)) :=
  (sorted_slots scores).map (·.map fun s => (s, scoreOf scores (.str s)))

/-- `s / total_users` (line 96): the saturation fraction of one slot. -/
def saturation (scores : List (Json × ℚ)) (total : ℕ) (k : Json) : ℚ :=
  scoreOf scores k / total

/-- The structured content of the rendered image: date-mode bars (dates,
raw scores, normalised scores) or the time-mode pivot data points. -/
inductive Heatmap where
  | dateBars : List String → List ℚ → List ℚ → Heatmap
  | timeGrid : List (String × Int × ℚ) → Heatmap
deriving DecidableEq

/-- Date-mode projection (lines 91-107): bars over the sorted dates, with
colour intensity `score / total_users`. -/
def dateProjection (scores : List (Json × ℚ)) (total : ℕ) : Option Heatmap :=
  match sorted_slots scores with
  | some ds =>
      some (.dateBars ds (ds.map fun d => scoreOf scores (.str d))
        (ds.map fun d => scoreOf scores (.str d) / total))
  | none => none

/-- Split a character list at every `'-'` (Python keeps empty segments, and
`"".split('-') == ['']`). -/
def splitChars : List Char → List (List Char)
  | [] => [[]]
  | c :: cs =>
      if c = '-' then [] :: splitChars cs
      else
        match splitChars cs with
        | seg :: rest => (c :: seg) :: rest
        | [] => [[c]]

/-- `slot.split('-')` (line 115). -/
def splitDash (s : String) : List String :=
  (splitChars s.data).map fun cs => String.mk cs

/-- `"-".join(parts[:-1])` (line 118). -/
def joinDash (parts : List String) : String :=
  String.intercalate "-" parts

/-- Decimal digit value of a character, if it is a digit. -/
def decDigit (c : Char) : Option ℕ :=
  if '0' ≤ c ∧ c ≤ '9' then some (c.toNat - '0'.toNat) else none

/-- Accumulate decimal digits left to right. -/
def decNatAux : List Char → ℕ → Option ℕ
  | [], acc => some acc
  | c :: cs, acc =>
      match decDigit c with
      | some d => decNatAux cs (acc * 10 + d)
      | none => none

/-- Python `int(s)` on a dash-free segment: optional sign followed by at
least one decimal digit.  (`int()` also tolerates surrounding whitespace and
underscores between digits; no claim exercises those inputs.) -/
def pyInt (s : String) : Option Int :=
  match s.data with
  | [] => none
  | '-' :: cs =>
      if cs.isEmpty then none else (decNatAux cs 0).map fun n => -(n : Int)
  | '+' :: cs =>
      if cs.isEmpty then none else (decNatAux cs 0).map fun n => (n : Int)
  | cs => (decNatAux cs 0).map fun n => (n : Int)

/-- The time-mode data-point loop (lines 113-119).  A slot with fewer than
two dash segments is skipped; a non-integer trailing segment raises
`ValueError` and a non-string slot key raises `AttributeError`, both caught
by the surrounding `try` — modelled as `none`. -/
def dataPointsAux : List (Json × ℚ) → Option (List (String × Int × ℚ))
  | [] => some []
  | (Json.str s, score) :: rest =>
      let parts := splitDash s
      if 2 ≤ parts.length then
        match pyInt (parts.getLastD "") with
        | some h =>
            (dataPointsAux rest).map fun l =>
              (joinDash parts.dropLast, h, score) :: l
        | none => none
      else dataPointsAux rest
  | _ => none

/-- Time-mode projection (lines 112-129): build the data points, return
`None` when none were produced (line 121), and `df.pivot` (line 125) raises
on a duplicated (Hour, Date) pair — caught, so the whole call yields
`none`. -/
def timeProjection (scores : List (Json × ℚ)) :
    Option (List (String × Int × ℚ)) :=
  match dataPointsAux scores with
  | none => none
  | some [] => none
  | some dps =>
      if (dps.map fun p => (p.2.1, p.1)).Nodup then some dps else none

/-- One cell of the pivot table: `some score` when the (hour, date) pair was
observed, absent (`NaN` in pandas) otherwise. -/
def pivotCell (dps : List (String × Int × ℚ)) (h : Int) (d : String) :
    Option ℚ :=
  (dps.find? fun p => p.2.1 == h && p.1 == d).map fun p => p.2.2

/-- The pivot table's row labels: sorted distinct hours. -/
def pivotRows (dps : List (String × Int × ℚ)) : List Int :=
  List.insertionSort (· ≤ ·) (dps.map fun p => p.2.1).dedup

/-- The pivot table's column labels: sorted distinct dates. -/
def pivotCols (dps : List (String × Int × ℚ)) : List String :=
  List.insertionSort strLeP (dps.map fun p => p.1).dedup

/-- `generate_heatmap_image` (lines 47-145), up to rendering.  `none` models
`return None`; the two hard failures that no claim reaches (a non-dict
`votes` value, and line 85's `sorted()` on mixed-type keys — both uncaught
exceptions in Python) are also modelled as `none`. -/
def generate_heatmap_image (event : Json) : Option Heatmap :=
  match jgetD event "votes" (.obj []) with
  | .obj vs =>
      if vs.isEmpty then none
      else
        let scores := aggregateScores vs
        if scores.isEmpty then none
        else
          match sorted_slots scores with
          | none => none
          | some _ =>
              if jgetD event "mode" (.str "time") = .str "date" then
                dateProjection scores vs.length
              else
                (timeProjection scores).map .timeGrid
  | _ => none

/-! ### Store endpoints (`submit_availability`, `create_event`) -/

/-- Outcome of `/submit_availability`: the "Event not found" error reply,
success, or an uncaught exception from a malformed stored event record. -/
inductive SubmitOut where
  | notFound : SubmitOut
  | success : SubmitOut
  | crash : SubmitOut
deriving DecidableEq

/-- `submit_availability` (lines 513-528), up to the notification side
effect: wholesale replacement of `votes[user_id]` by the two-field wrapper
`{"slots": slots, "username": username}`. -/
def submit_availability (db : List (String × Json)) (data : Json) :
    List (String × Json) × SubmitOut :=
  let user_id := pyStr (jgetD data "userId" .null)
  let username := jgetD data "username" .null
  let slots := jgetD data "slots" .null
  match jget data "eventId" with
  | some (Json.str e) =>
      match objGet db e with
      | some (Json.obj fields) =>
          match objGet fields "votes" with
          | some (Json.obj vs) =>
              let sub := Json.obj [("slots", slots), ("username", username)]
              let fields' :=
                objSet fields "votes" (Json.obj (objSet vs user_id sub))
              (objSet db e (Json.obj fields'), .success)
          | _ => (db, .crash)
      | some _ => (db, .crash)
      | none => (db, .notFound)
  | _ => (db, .notFound)

/-- `create_event` (lines 546-580), up to the announcement side effect.  The
fresh `event_id` (chat id + timestamp + random in Python) is injected as the
`eventId` argument.  If a `setup_{setup_id}` record exists it supplies the
required participants and is deleted; otherwise the participants default to
the empty list and the call proceeds regardless. -/
def create_event (db : List (String × Json)) (data : Json)
    (eventId : String) : List (String × Json) × Except String String :=
  let name := jgetD data "name" (.str "New Event")
  let mode := jgetD data "mode" (.str "time")
  let start_date := jgetD data "start_date" .null
  let end_date := jgetD data "end_date" .null
  let chat_id := jgetD data "chat_id" .null
  let setup_id := jgetD data "setup_id" .null
  if pyFalsy chat_id then (db, .error "Missing chat_id")
  else
    let pr : Json × List (String × Json) :=
      if pyFalsy setup_id then (Json.arr [], db)
      else
        match objGet db ("setup_" ++ pyStr setup_id) with
        | some v => (v, objDel db ("setup_" ++ pyStr setup_id))
        | none => (Json.arr [], db)
    let ev := Json.obj [("name", name), ("mode", mode),
      ("start_date", start_date), ("end_date", end_date),
      ("chat_id", chat_id), ("required_participants", pr.1),
      ("votes", Json.obj [])]
    (objSet pr.2 eventId ev, .ok eventId)

/-! ### Dict lemmas -/

theorem objGet_objSet_same (fs : List (String × Json)) (k : String)
    (v : Json) : objGet (objSet fs k v) k = some v := by
  induction fs with
  | nil => simp [objSet, objGet]
  | cons p rest ih =>
      obtain ⟨k', v'⟩ := p
      by_cases h : k' = k <;> simp [objSet, objGet, h, ih]

theorem objGet_objSet_other (fs : List (String × Json)) (k k' : String)
    (v : Json) (h : k' ≠ k) :
    objGet (objSet fs k v) k' = objGet fs k' := by
  have hkk : ¬ k = k' := fun he => h he.symm
  induction fs with
  | nil => simp [objSet, objGet, hkk]
  | cons p rest ih =>
      obtain ⟨k0, v0⟩ := p
      by_cases h0 : k0 = k
      · subst h0
        simp [objSet, objGet, hkk]
      · by_cases h1 : k0 = k' <;> simp [objSet, objGet, h0, h1, h, ih]

theorem objGet_objDel_other (fs : List (String × Json)) (k k' : String)
    (h : k' ≠ k) : objGet (objDel fs k) k' = objGet fs k' := by
  have hkk : ¬ k = k' := fun he => h he.symm
  induction fs with
  | nil => simp [objDel]
  | cons p rest ih =>
      obtain ⟨k0, v0⟩ := p
      by_cases h0 : k0 = k
      · subst h0
        simp [objDel, objGet, hkk]
      · by_cases h1 : k0 = k' <;> simp [objDel, objGet, h0, h1, h, ih]

theorem objGet_eq_none (fs : List (String × Json)) (k : String)
    (h : k ∉ fs.map Prod.fst) : objGet fs k = none := by
  induction fs with
  | nil => rfl
  | cons p rest ih =>
      obtain ⟨k0, v0⟩ := p
      simp only [List.map_cons, List.mem_cons, not_or] at h
      have h1 : ¬ k0 = k := fun he => h.1 he.symm
      simp [objGet, h1, ih h.2]

theorem objGet_objDel_same (fs : List (String × Json)) (k : String)
    (h : (fs.map Prod.fst).Nodup) : objGet (objDel fs k) k = none := by
  induction fs with
  | nil => simp [objDel, objGet]
  | cons p rest ih =>
      obtain ⟨k0, v0⟩ := p
      simp only [List.map_cons, List.nodup_cons] at h
      by_cases h0 : k0 = k
      · subst h0
        simp only [objDel, if_pos rfl]
        exact objGet_eq_none rest k0 h.1
      · simp [objDel, objGet, h0, ih h.2]

/-! ### Per-participant contribution bounds -/

/-- A raw submission without the duplicates Python cannot produce from a
parsed dict but a JSON list can carry: after the `"slots"` unwrap, a
list-shaped submission has no repeated element and a map-shaped one no
repeated key. -/
def tame (uv : Json) : Prop :=
  match uv with
  | .arr xs => xs.Nodup
  | .obj fs =>
      match (match objGet fs "slots" with
             | some inner => inner
             | none => Json.obj fs) with
      | .arr xs => xs.Nodup
      | .obj gs => (gs.map Prod.fst).Nodup
      | _ => True
  | _ => True

theorem slotWeight_nonneg (v : Json) : 0 ≤ slotWeight v := by
  unfold slotWeight
  split <;> norm_num

theorem slotWeight_le_one (v : Json) : slotWeight v ≤ 1 := by
  unfold slotWeight
  split <;> norm_num

theorem listContrib_nonneg (xs : List Json) (k : Json) :
    0 ≤ listContrib xs k := by
  apply List.sum_nonneg
  intro x hx
  simp only [List.mem_map] at hx
  obtain ⟨y, _, rfl⟩ := hx
  split <;> norm_num

theorem mapContrib_nonneg (gs : List (String × Json)) (k : Json) :
    0 ≤ mapContrib gs k := by
  apply List.sum_nonneg
  intro x hx
  simp only [List.mem_map] at hx
  obtain ⟨g, _, rfl⟩ := hx
  split
  · exact slotWeight_nonneg g.2
  · exact le_refl 0

theorem contrib_nonneg (uv : Json) (k : Json) : 0 ≤ contrib uv k := by
  cases uv with
  | arr xs => exact listContrib_nonneg xs k
  | obj fs =>
      simp only [contrib]
      cases objGet fs "slots" with
      | none => exact mapContrib_nonneg fs k
      | some inner =>
          cases inner <;>
            first
              | exact listContrib_nonneg _ k
              | exact mapContrib_nonneg _ k
              | norm_num
  | null => norm_num [contrib]
  | bool b => norm_num [contrib]
  | num q => norm_num [contrib]
  | str s => norm_num [contrib]

theorem listContrib_eq_zero (xs : List Json) (k : Json) (h : k ∉ xs) :
    listContrib xs k = 0 := by
  induction xs with
  | nil => rfl
  | cons x xs ih =>
      simp only [List.mem_cons, not_or] at h
      have hx : ¬ x = k := fun he => h.1 he.symm
      simp [listContrib, hx] at ih ⊢
      exact ih h.2

theorem listContrib_le_one (xs : List Json) (k : Json) (h : xs.Nodup) :
    listContrib xs k ≤ 1 := by
  induction xs with
  | nil => norm_num [listContrib]
  | cons x xs ih =>
      obtain ⟨hx, hxs⟩ := List.nodup_cons.mp h
      by_cases he : x = k
      · subst he
        have : listContrib xs x = 0 := listContrib_eq_zero xs x hx
        simp [listContrib] at this ⊢
        simp [this]
      · have := ih hxs
        simp only [listContrib, List.map_cons, List.sum_cons, if_neg he] at this ⊢
        linarith

theorem mapContrib_eq_zero (gs : List (String × Json)) (k : Json)
    (h : ∀ g ∈ gs, Json.str g.1 ≠ k) : mapContrib gs k = 0 := by
  induction gs with
  | nil => rfl
  | cons g gs ih =>
      have hg : ¬ Json.str g.1 = k := h g (by simp)
      simp only [mapContrib, List.map_cons, List.sum_cons, if_neg hg] at ih ⊢
      rw [zero_add]
      exact ih fun g' hg' => h g' (List.mem_cons_of_mem _ hg')

theorem mapContrib_le_one (gs : List (String × Json)) (k : Json)
    (h : (gs.map Prod.fst).Nodup) : mapContrib gs k ≤ 1 := by
  induction gs with
  | nil => norm_num [mapContrib]
  | cons g gs ih =>
      simp only [List.map_cons, List.nodup_cons] at h
      by_cases he : Json.str g.1 = k
      · have hz : mapContrib gs k = 0 := by
          apply mapContrib_eq_zero
          intro g' hg' hk
          apply h.1
          have hgg : g'.1 = g.1 := Json.str.inj (hk.trans he.symm)
          rw [← hgg]
          exact List.mem_map_of_mem Prod.fst hg'
        have hsplit : mapContrib (g :: gs) k = slotWeight g.2 + mapContrib gs k := by
          simp [mapContrib, if_pos he]
        rw [hsplit, hz, add_zero]
        exact slotWeight_le_one g.2
      · have := ih h.2
        simp only [mapContrib, List.map_cons, List.sum_cons, if_neg he] at this ⊢
        linarith

theorem contrib_le_one (uv : Json) (k : Json) (h : tame uv) :
    contrib uv k ≤ 1 := by
  cases uv with
  | arr xs => exact listContrib_le_one xs k h
  | obj fs =>
      simp only [contrib]
      simp only [tame] at h
      cases hg : objGet fs "slots" with
      | none =>
          rw [hg] at h
          exact mapContrib_le_one fs k h
      | some inner =>
          rw [hg] at h
          cases inner <;>
            first
              | exact listContrib_le_one _ k h
              | exact mapContrib_le_one _ k h
              | norm_num
  | null => norm_num [contrib]
  | bool b => norm_num [contrib]
  | num q => norm_num [contrib]
  | str s => norm_num [contrib]

theorem sum_le_length (l : List ℚ) (h : ∀ x ∈ l, x ≤ 1) :
    l.sum ≤ l.length := by
  induction l with
  | nil => simp
  | cons x xs ih =>
      have h1 := h x (by simp)
      have h2 := ih fun y hy => h y (List.mem_cons_of_mem _ hy)
      simp only [List.sum_cons, List.length_cons]
      push_cast
      linarith

theorem sum_eq_length_iff (l : List ℚ) (h : ∀ x ∈ l, x ≤ 1) :
    l.sum = l.length ↔ ∀ x ∈ l, x = 1 := by
  induction l with
  | nil => simp
  | cons x xs ih =>
      have h1 := h x (by simp)
      have h2 := sum_le_length xs fun y hy => h y (List.mem_cons_of_mem _ hy)
      constructor
      · intro he
        simp only [List.sum_cons, List.length_cons] at he
        push_cast at he
        have hx : x = 1 := by linarith
        have hxs : xs.sum = xs.length := by linarith
        intro y hy
        rcases List.mem_cons.mp hy with rfl | hy'
        · exact hx
        · exact ((ih fun y hy => h y (List.mem_cons_of_mem _ hy)).mp hxs) y hy'
      · intro ha
        have hx := ha x (by simp)
        have hxs := (ih fun y hy => h y (List.mem_cons_of_mem _ hy)).mpr
          fun y hy => ha y (List.mem_cons_of_mem _ hy)
        simp only [List.sum_cons, List.length_cons, hx, hxs]
        push_cast
        ring

/-! ### Claims about the aggregation engine -/

/-- C1: in a time-mode event with exactly two participants, P1 submitting
the map `0-9 ↦ yes, 0-10 ↦ maybe` and P2 the legacy list `["0-9"]`,
normalization gives P2's single entry weight 1.0, and aggregation yields
`totalParticipants = 2` with slot scores `0-9 = 2.0` and `0-10 = 0.5`
(a yes contributes 1.0 and a maybe 0.5). -/
theorem c1_scenario_a :
    totalParticipants
      [("P1", Json.obj [("0-9", Json.str "yes"), ("0-10", Json.str "maybe")]),
       ("P2", Json.arr [Json.str "0-9"])] = 2
    ∧ contrib (Json.arr [Json.str "0-9"]) (Json.str "0-9") = 1
    ∧ scoreOf (aggregateScores
        [("P1", Json.obj [("0-9", Json.str "yes"), ("0-10", Json.str "maybe")]),
         ("P2", Json.arr [Json.str "0-9"])]) (Json.str "0-9") = 2
    ∧ scoreOf (aggregateScores
        [("P1", Json.obj [("0-9", Json.str "yes"), ("0-10", Json.str "maybe")]),
         ("P2", Json.arr [Json.str "0-9"])]) (Json.str "0-10") = 1 / 2 := by
  refine ⟨rfl, ?_, ?_, ?_⟩ <;>
    norm_num +decide [aggregateScores, addSubmission, addList, addMap, bump,
      scoreOf, objGet, slotWeight, contrib, listContrib]

/-- C9: aggregating the participants in any permutation yields the same
score for every slot.  (Scores are modelled in `ℚ`; every weight is 1.0 or
0.5, so the floating accumulation in the source is exact and therefore
order-independent as well.) -/
theorem c9_aggregation_commutative (votes1 votes2 : List (String × Json))
    (h : votes1.Perm votes2) (k : Json) :
    scoreOf (aggregateScores votes1) k = scoreOf (aggregateScores votes2) k := by
  rw [scoreOf_aggregate, scoreOf_aggregate]
  exact List.Perm.sum_eq (h.map _)

theorem c9_aggregation_commutative_witness :
    ([("P1", Json.arr [Json.str "0-9"]),
      ("P2", Json.obj [("0-9", Json.str "maybe")])].Perm
      [("P2", Json.obj [("0-9", Json.str "maybe")]),
       ("P1", Json.arr [Json.str "0-9"])])
    ∧ scoreOf (aggregateScores
        [("P1", Json.arr [Json.str "0-9"]),
         ("P2", Json.obj [("0-9", Json.str "maybe")])]) (Json.str "0-9")
      = scoreOf (aggregateScores
        [("P2", Json.obj [("0-9", Json.str "maybe")]),
         ("P1", Json.arr [Json.str "0-9"])]) (Json.str "0-9") :=
  ⟨List.Perm.swap _ _ _,
   c9_aggregation_commutative _ _ (List.Perm.swap _ _ _) _⟩

/-- C4 counterexample: a submission that is a sequence of non-strings is
not degraded to an empty canonical map, contrary to the claim: participant
P1's list `[42]` gives the slot `42` weight 1.0 in the aggregate, so a
value that is neither a sequence of strings nor a mapping can still
contribute non-zero weight. -/
theorem c4_counterexample :
    contrib (Json.arr [Json.num 42]) (Json.num 42) = 1
    ∧ scoreOf (aggregateScores
        [("P1", Json.arr [Json.num 42]), ("P2", Json.arr [Json.str "0-9"])])
        (Json.num 42) = 1
    ∧ ¬ (∀ k, contrib (Json.arr [Json.num 42]) k = 0) := by
  refine ⟨?_, ?_, ?_⟩
  · norm_num +decide [contrib, listContrib]
  · norm_num +decide [aggregateScores, addSubmission, addList, bump, scoreOf]
  · intro hall
    have := hall (Json.num 42)
    norm_num +decide [contrib, listContrib] at this

/-- C4 (amended): a participant whose submission is null or a scalar —
neither a sequence nor a mapping; element types of sequences are not
checked — contributes weight zero to every slot, and removing that
submission leaves every slot's aggregate score unchanged, so one such
malformed submission never corrupts or aborts the event-wide aggregation
(the embedding is total: no exception is raised on these shapes). -/
theorem c4_malformed_degrades (pre post : List (String × Json))
    (uid : String) (v : Json)
    (hv : ∀ xs, v ≠ Json.arr xs) (hv2 : ∀ fs, v ≠ Json.obj fs) (k : Json) :
    contrib v k = 0
    ∧ scoreOf (aggregateScores (pre ++ (uid, v) :: post)) k
        = scoreOf (aggregateScores (pre ++ post)) k := by
  have hc : contrib v k = 0 := by
    cases v with
    | arr xs => exact absurd rfl (hv xs)
    | obj fs => exact absurd rfl (hv2 fs)
    | null => rfl
    | bool b => rfl
    | num q => rfl
    | str s => rfl
  refine ⟨hc, ?_⟩
  rw [scoreOf_aggregate, scoreOf_aggregate]
  simp [hc]

theorem c4_malformed_degrades_witness :
    contrib Json.null (Json.str "0-9") = 0
    ∧ scoreOf (aggregateScores
        ([("P2", Json.arr [Json.str "0-9"])] ++ ("P1", Json.null) :: []))
        (Json.str "0-9")
      = scoreOf (aggregateScores ([("P2", Json.arr [Json.str "0-9"])] ++ []))
        (Json.str "0-9") :=
  c4_malformed_degrades [("P2", Json.arr [Json.str "0-9"])] [] "P1" Json.null
    (by intro xs h; cases h) (by intro fs h; cases h) (Json.str "0-9")

/-- C5 counterexample: one participant submitting the legacy list
`["0-9", "0-9"]` (a duplicated slot) gives slot `0-9` score 2.0 while
`totalParticipants = 1`, so a slot's score can exceed the participant
count and the saturation fraction (2 here) can leave [0, 1]. -/
theorem c5_counterexample :
    totalParticipants [("P1", Json.arr [Json.str "0-9", Json.str "0-9"])] = 1
    ∧ scoreOf (aggregateScores
        [("P1", Json.arr [Json.str "0-9", Json.str "0-9"])]) (Json.str "0-9") = 2
    ∧ saturation (aggregateScores
        [("P1", Json.arr [Json.str "0-9", Json.str "0-9"])]) 1
        (Json.str "0-9") = 2
    ∧ ¬ ((2 : ℚ) ≤ 1) := by
  refine ⟨rfl, ?_, ?_, by norm_num⟩ <;>
    norm_num +decide [aggregateScores, addSubmission, addList, bump, scoreOf,
      saturation]

/-- C5 (amended): provided no participant's submission carries duplicates
(a parsed Python dict cannot; a legacy JSON list can), every slot's
aggregated score lies between 0 and `totalParticipants`, reaches
`totalParticipants` exactly when every participant contributes full weight
1.0 to that slot, and the saturation fraction `score / totalParticipants`
lies in [0, 1]. -/
theorem c5_score_bounds (votes : List (String × Json))
    (h : ∀ p ∈ votes, tame p.2) (k : Json) :
    0 ≤ scoreOf (aggregateScores votes) k
    ∧ scoreOf (aggregateScores votes) k ≤ (totalParticipants votes : ℚ)
    ∧ (scoreOf (aggregateScores votes) k = (totalParticipants votes : ℚ)
        ↔ ∀ p ∈ votes, contrib p.2 k = 1)
    ∧ 0 ≤ saturation (aggregateScores votes) (totalParticipants votes) k
    ∧ saturation (aggregateScores votes) (totalParticipants votes) k ≤ 1 := by
  have hsum := scoreOf_aggregate votes k
  have hle : ∀ x ∈ votes.map fun p => contrib p.2 k, x ≤ 1 := by
    intro x hx
    simp only [List.mem_map] at hx
    obtain ⟨p, hp, rfl⟩ := hx
    exact contrib_le_one p.2 k (h p hp)
  have hnn : 0 ≤ scoreOf (aggregateScores votes) k := by
    rw [hsum]
    apply List.sum_nonneg
    intro x hx
    simp only [List.mem_map] at hx
    obtain ⟨p, _, rfl⟩ := hx
    exact contrib_nonneg p.2 k
  have hlen : ((votes.map fun p => contrib p.2 k).length : ℚ)
      = (totalParticipants votes : ℚ) := by
    simp [totalParticipants]
  have hub : scoreOf (aggregateScores votes) k ≤ (totalParticipants votes : ℚ) := by
    rw [hsum, ← hlen]
    exact sum_le_length _ hle
  refine ⟨hnn, hub, ?_, ?_, ?_⟩
  · rw [hsum, ← hlen]
    rw [sum_eq_length_iff _ hle]
    constructor
    · intro ha p hp
      exact ha _ (List.mem_map_of_mem _ hp)
    · intro ha x hx
      simp only [List.mem_map] at hx
      obtain ⟨p, hp, rfl⟩ := hx
      exact ha p hp
  · exact div_nonneg hnn (by positivity)
  · unfold saturation
    rcases Nat.eq_zero_or_pos (totalParticipants votes) with hz | hpos
    · rw [hz]
      push_cast
      rw [div_zero]
      norm_num
    · rw [div_le_one (by exact_mod_cast hpos)]
      exact hub

theorem c5_score_bounds_witness :
    0 ≤ scoreOf (aggregateScores
        [("P1", Json.arr [Json.str "0-9"]), ("P2", Json.arr [Json.str "0-9"])])
        (Json.str "0-9")
    ∧ scoreOf (aggregateScores
        [("P1", Json.arr [Json.str "0-9"]), ("P2", Json.arr [Json.str "0-9"])])
        (Json.str "0-9")
      ≤ (totalParticipants
          [("P1", Json.arr [Json.str "0-9"]), ("P2", Json.arr [Json.str "0-9"])] : ℚ)
    ∧ (scoreOf (aggregateScores
          [("P1", Json.arr [Json.str "0-9"]), ("P2", Json.arr [Json.str "0-9"])])
          (Json.str "0-9")
        = (totalParticipants
            [("P1", Json.arr [Json.str "0-9"]), ("P2", Json.arr [Json.str "0-9"])] : ℚ)
          ↔ ∀ p ∈ [("P1", Json.arr [Json.str "0-9"]), ("P2", Json.arr [Json.str "0-9"])],
              contrib p.2 (Json.str "0-9") = 1)
    ∧ 0 ≤ saturation (aggregateScores
          [("P1", Json.arr [Json.str "0-9"]), ("P2", Json.arr [Json.str "0-9"])])
          (totalParticipants
            [("P1", Json.arr [Json.str "0-9"]), ("P2", Json.arr [Json.str "0-9"])])
          (Json.str "0-9")
    ∧ saturation (aggregateScores
          [("P1", Json.arr [Json.str "0-9"]), ("P2", Json.arr [Json.str "0-9"])])
          (totalParticipants
            [("P1", Json.arr [Json.str "0-9"]), ("P2", Json.arr [Json.str "0-9"])])
          (Json.str "0-9") ≤ 1 :=
  c5_score_bounds
    [("P1", Json.arr [Json.str "0-9"]), ("P2", Json.arr [Json.str "0-9"])]
    (by
      intro p hp
      simp only [List.mem_cons, List.not_mem_nil, or_false] at hp
      rcases hp with rfl | rfl <;>
        exact (by decide : List.Nodup [Json.str "0-9"]))
    (Json.str "0-9")

/-! ### Claims about the projections -/

/-- The data point a single aggregated slot yields in time mode when the
projection succeeds: keys with fewer than two dash segments yield nothing
(dropped), keys with at least two yield (date, hour, score). -/
def pointOf (p : Json × ℚ) : Option (String × Int × ℚ) :=
  match p.1 with
  | .str s =>
      if 2 ≤ (splitDash s).length then
        (pyInt ((splitDash s).getLastD "")).map
          fun h => (joinDash (splitDash s).dropLast, h, p.2)
      else none
  | _ => none

/-- A successful data-point pass returns exactly the per-slot points. -/
theorem dataPointsAux_some (scores : List (Json × ℚ))
    (l : List (String × Int × ℚ)) (h : dataPointsAux scores = some l) :
    l = scores.filterMap pointOf := by
  induction scores generalizing l with
  | nil =>
      simp only [dataPointsAux, Option.some_inj] at h
      simp [← h]
  | cons p rest ih =>
      obtain ⟨k, sc⟩ := p
      cases k with
      | str s =>
          simp only [dataPointsAux] at h
          by_cases hlen : 2 ≤ (splitDash s).length
          · rw [if_pos hlen] at h
            cases hint : pyInt ((splitDash s).getLastD "") with
            | none => rw [hint] at h; cases h
            | some hr =>
                rw [hint] at h
                cases hrest : dataPointsAux rest with
                | none => rw [hrest] at h; cases h
                | some l' =>
                    rw [hrest] at h
                    simp only [Option.map_some', Option.some_inj] at h
                    rw [← h, List.filterMap_cons]
                    simp only [pointOf, if_pos hlen, hint, Option.map_some']
                    rw [ih l' hrest]
          · rw [if_neg hlen] at h
            rw [List.filterMap_cons]
            simp only [pointOf, if_neg hlen]
            exact ih l h
      | null => simp [dataPointsAux] at h
      | bool b => simp [dataPointsAux] at h
      | num q => simp [dataPointsAux] at h
      | arr xs => simp [dataPointsAux] at h
      | obj fs => simp [dataPointsAux] at h

/-- The data-point pass succeeds when every slot key is a string whose
trailing segment, for keys of at least two segments, is an integer. -/
theorem dataPointsAux_eq (scores : List (Json × ℚ))
    (hstr : ∀ p ∈ scores, ∃ s, p.1 = Json.str s)
    (hint : ∀ p ∈ scores, ∀ s, p.1 = Json.str s →
      2 ≤ (splitDash s).length → (pyInt ((splitDash s).getLastD "")).isSome) :
    dataPointsAux scores = some (scores.filterMap pointOf) := by
  induction scores with
  | nil => rfl
  | cons p rest ih =>
      obtain ⟨k, sc⟩ := p
      obtain ⟨s, hs⟩ := hstr (k, sc) (by simp)
      simp only at hs
      subst hs
      have ihr := ih (fun p hp => hstr p (List.mem_cons_of_mem _ hp))
        (fun p hp => hint p (List.mem_cons_of_mem _ hp))
      simp only [dataPointsAux]
      by_cases hlen : 2 ≤ (splitDash s).length
      · have hsome := hint (Json.str s, sc) (by simp) s rfl hlen
        cases hi : pyInt ((splitDash s).getLastD "") with
        | none => rw [hi] at hsome; cases hsome
        | some hr =>
            rw [if_pos hlen, ihr]
            rw [List.filterMap_cons]
            have hi' : pyInt ((splitDash s).getLast?.getD "") = some hr := by
              rw [← List.getLastD_eq_getLast?]
              exact hi
            simp [pointOf, if_pos hlen, hi, hi']
      · rw [if_neg hlen, ihr, List.filterMap_cons]
        simp [pointOf, if_neg hlen]

theorem pivotCell_eq_none_iff (dps : List (String × Int × ℚ)) (hr : Int)
    (d : String) :
    pivotCell dps hr d = none ↔ ∀ p ∈ dps, ¬ (p.2.1 = hr ∧ p.1 = d) := by
  simp [pivotCell, List.find?_eq_none]

theorem pivotCell_eq_some (dps : List (String × Int × ℚ))
    (hnd : (dps.map fun p => (p.2.1, p.1)).Nodup)
    (p : String × Int × ℚ) (hp : p ∈ dps) :
    pivotCell dps p.2.1 p.1 = some p.2.2 := by
  induction dps with
  | nil => cases hp
  | cons q rest ih =>
      simp only [List.map_cons, List.nodup_cons] at hnd
      rcases List.mem_cons.mp hp with rfl | hp'
      · simp [pivotCell, List.find?]
      · have hqp : ¬ ((q.2.1, q.1) = (p.2.1, p.1)) := by
          intro he
          apply hnd.1
          rw [he]
          exact List.mem_map_of_mem _ hp'
        have hb : (q.2.1 == p.2.1 && q.1 == p.1) = false := by
          rcases Prod.mk.injEq .. ▸ fun h => hqp h with _
          by_cases h1 : q.2.1 = p.2.1
          · by_cases h2 : q.1 = p.1
            · exact absurd (by rw [h1, h2]) hqp
            · simp [h1, h2]
          · simp [h1]
        have := ih hnd.2 hp'
        simp only [pivotCell, List.find?, hb] at this ⊢
        exact this

/-- C2 counterexample: for the date-mode event where `2024-06-01` scores
0.5 and `2024-06-02` scores 1.0, the ordered output the code produces is
`[(2024-06-01, 0.5), (2024-06-02, 1.0)]` — ascending by key — which is not
sorted by descending score, refuting the claimed ranking rule. -/
theorem c2_counterexample :
    orderedScores (aggregateScores
      [("P1", Json.obj [("2024-06-02", Json.str "yes"),
                        ("2024-06-01", Json.str "maybe")])])
      = some [("2024-06-01", 1 / 2), ("2024-06-02", 1)]
    ∧ ¬ List.Sorted (fun p q : String × ℚ => q.2 ≤ p.2)
        [("2024-06-01", 1 / 2), ("2024-06-02", 1)] := by
  constructor
  · norm_num +decide [aggregateScores, addSubmission, addMap, bump,
      orderedScores, sorted_slots, keyStrings, objGet, List.insertionSort,
      List.orderedInsert, strLeP, strLe, charListLe, slotWeight, scoreOf]
  · intro hs
    have := List.rel_of_sorted_cons hs ("2024-06-02", 1) (by simp)
    norm_num at this

/-- C2 (amended): the ordered output sequence the code produces is sorted
by ascending lexicographic slot key, independent of the scores: whenever
every aggregated slot key is a string, the sequence is the key-sorted list
paired with each key's score, its keys are `strLeP`-sorted, and they are a
permutation of the aggregated keys.  Being a pure function of the event
snapshot, repeated calls produce the identical sequence. -/
theorem c2_sorted_by_key (votes : List (String × Json)) (ks : List String)
    (h : keyStrings (aggregateScores votes) = some ks) :
    orderedScores (aggregateScores votes)
      = some ((List.insertionSort strLeP ks).map
          fun s => (s, scoreOf (aggregateScores votes) (Json.str s)))
    ∧ List.Sorted strLeP (List.insertionSort strLeP ks)
    ∧ (List.insertionSort strLeP ks).Perm ks := by
  refine ⟨?_, List.sorted_insertionSort strLeP ks, List.perm_insertionSort strLeP ks⟩
  simp [orderedScores, sorted_slots, h]

theorem c2_sorted_by_key_witness :
    orderedScores (aggregateScores
      [("P1", Json.obj [("b", Json.str "yes"), ("a", Json.str "maybe")])])
      = some ((List.insertionSort strLeP ["b", "a"]).map
          fun s => (s, scoreOf (aggregateScores
            [("P1", Json.obj [("b", Json.str "yes"), ("a", Json.str "maybe")])])
            (Json.str s)))
    ∧ List.Sorted strLeP (List.insertionSort strLeP ["b", "a"])
    ∧ (List.insertionSort strLeP ["b", "a"]).Perm ["b", "a"] :=
  c2_sorted_by_key
    [("P1", Json.obj [("b", Json.str "yes"), ("a", Json.str "maybe")])]
    ["b", "a"]
    (by norm_num +decide [aggregateScores, addSubmission, addMap, bump,
      keyStrings, objGet, slotWeight])

/-- C3 counterexample: in the time-mode event whose single participant
voted `["0-9", "0-x"]`, the slot `0-x` (non-integer trailing segment) is
not merely dropped: the whole heatmap call produces no image at all, even
though the recognizable slot `0-9` was aggregated with score 1 — the call
fails as a whole instead of projecting the remaining slot. -/
theorem c3_counterexample :
    generate_heatmap_image (Json.obj [("mode", Json.str "time"),
      ("votes", Json.obj [("P1", Json.arr [Json.str "0-9", Json.str "0-x"])])])
      = none
    ∧ scoreOf (aggregateScores
        [("P1", Json.arr [Json.str "0-9", Json.str "0-x"])]) (Json.str "0-9")
      = 1 := by
  constructor
  · norm_num +decide [generate_heatmap_image, jgetD, jget, objGet,
      aggregateScores, addSubmission, addList, bump, sorted_slots, keyStrings,
      List.insertionSort, List.orderedInsert, strLeP, strLe, charListLe,
      timeProjection, dataPointsAux, splitDash, splitChars, pyInt, decNatAux,
      decDigit, List.getLastD]
  · norm_num +decide [aggregateScores, addSubmission, addList, bump, scoreOf]

/-- C3 (amended): unrecognizable keys are dropped only at projection and
only when they have fewer than two dash segments: when every aggregated key
is a string, every key with at least two segments has an integer trailing
segment, at least one point results and the (hour, date) pairs are
distinct, the time-mode projection succeeds with exactly the two-or-more
segment slots projected and the short keys silently dropped — and the call
never raises (failure is the `none` return).  A key whose trailing segment
is not an integer instead makes the whole projection return `none`. -/
theorem c3_unrecognized_drop (scores : List (Json × ℚ))
    (hstr : ∀ p ∈ scores, ∃ s, p.1 = Json.str s)
    (hint : ∀ p ∈ scores, ∀ s, p.1 = Json.str s →
      2 ≤ (splitDash s).length → (pyInt ((splitDash s).getLastD "")).isSome)
    (hne : scores.filterMap pointOf ≠ [])
    (hnd : ((scores.filterMap pointOf).map fun p => (p.2.1, p.1)).Nodup) :
    timeProjection scores = some (scores.filterMap pointOf)
    ∧ (∀ p ∈ scores, ∀ s, p.1 = Json.str s → (splitDash s).length < 2 →
        pointOf p = none)
    ∧ (∀ p ∈ scores, ∀ dp, pointOf p = some dp →
        dp ∈ scores.filterMap pointOf) := by
  refine ⟨?_, ?_, ?_⟩
  · unfold timeProjection
    rw [dataPointsAux_eq scores hstr hint]
    cases hfm : scores.filterMap pointOf with
    | nil => exact absurd hfm hne
    | cons a l => simp [← hfm, hnd]
  · intro p _ s hs hlen
    obtain ⟨k, sc⟩ := p
    simp only at hs
    subst hs
    simp [pointOf, Nat.not_le.mpr hlen]
  · intro p hp dp hdp
    exact List.mem_filterMap.mpr ⟨p, hp, hdp⟩

theorem c3_unrecognized_drop_witness :
    timeProjection [(Json.str "free", (1 : ℚ)), (Json.str "0-9", 2)]
      = some ([(Json.str "free", (1 : ℚ)), (Json.str "0-9", 2)].filterMap pointOf)
    ∧ (∀ p ∈ [(Json.str "free", (1 : ℚ)), (Json.str "0-9", 2)], ∀ s,
        p.1 = Json.str s → (splitDash s).length < 2 → pointOf p = none)
    ∧ (∀ p ∈ [(Json.str "free", (1 : ℚ)), (Json.str "0-9", 2)], ∀ dp,
        pointOf p = some dp →
        dp ∈ [(Json.str "free", (1 : ℚ)), (Json.str "0-9", 2)].filterMap pointOf) :=
  c3_unrecognized_drop [(Json.str "free", (1 : ℚ)), (Json.str "0-9", 2)]
    (by
      intro p hp
      simp only [List.mem_cons, List.not_mem_nil, or_false] at hp
      rcases hp with rfl | rfl
      · exact ⟨"free", rfl⟩
      · exact ⟨"0-9", rfl⟩)
    (by
      intro p hp s hs hlen
      simp only [List.mem_cons, List.not_mem_nil, or_false] at hp
      rcases hp with rfl | rfl <;> simp only at hs
      · obtain rfl := Json.str.inj hs
        exfalso
        revert hlen
        norm_num +decide [splitDash, splitChars]
      · obtain rfl := Json.str.inj hs
        norm_num +decide [splitDash, splitChars, pyInt, decNatAux, decDigit,
          List.getLastD])
    (by norm_num +decide [pointOf, splitDash, splitChars, pyInt, decNatAux,
      decDigit, List.getLastD, joinDash])
    (by norm_num +decide [pointOf, splitDash, splitChars, pyInt, decNatAux,
      decDigit, List.getLastD, joinDash])

/-- C8 counterexample: in the time-mode aggregate of slots `0-9` and
`1-10`, the pivot has rows {9, 10} and columns {"0", "1"}, but the grid
cell at hour 9, date "1" is absent (`NaN` in the pandas pivot, masked in
the heatmap), not 0 as claimed. -/
theorem c8_counterexample :
    timeProjection (aggregateScores
      [("P1", Json.arr [Json.str "0-9"]), ("P2", Json.arr [Json.str "1-10"])])
      = some [("0", 9, 1), ("1", 10, 1)]
    ∧ 9 ∈ pivotRows [("0", 9, 1), ("1", 10, 1)]
    ∧ "1" ∈ pivotCols [("0", 9, 1), ("1", 10, 1)]
    ∧ pivotCell [("0", 9, 1), ("1", 10, 1)] 9 "1" = none
    ∧ pivotCell [("0", 9, 1), ("1", 10, 1)] 9 "1" ≠ some 0 := by
  refine ⟨?_, ?_, ?_, ?_, ?_⟩
  · norm_num +decide [aggregateScores, addSubmission, addList, bump,
      timeProjection, dataPointsAux, splitDash, splitChars, pyInt, decNatAux,
      decDigit, List.getLastD, joinDash]
  · norm_num +decide [pivotRows, List.insertionSort, List.orderedInsert,
      List.dedup]
  · norm_num +decide [pivotCols, List.insertionSort, List.orderedInsert,
      List.dedup, strLeP, strLe, charListLe]
  · norm_num +decide [pivotCell, List.find?]
  · norm_num +decide [pivotCell, List.find?]

/-- C8 (amended): when the time-mode projection succeeds, its data points
are exactly the slots with at least two dash segments, pivoted into
(date, hour, score) triples with distinct (hour, date) pairs; each observed
pair's cell holds that slot's score, and every (hour, date) pair not among
the observed points has an absent cell (`NaN`), never 0. -/
theorem c8_pivot_cells (scores : List (Json × ℚ))
    (dps : List (String × Int × ℚ)) (h : timeProjection scores = some dps) :
    dps = scores.filterMap pointOf
    ∧ (∀ p ∈ dps, pivotCell dps p.2.1 p.1 = some p.2.2)
    ∧ (∀ hr d, pivotCell dps hr d = none ↔
        ∀ p ∈ dps, ¬ (p.2.1 = hr ∧ p.1 = d)) := by
  have hshape : dataPointsAux scores = some dps
      ∧ (dps.map fun p => (p.2.1, p.1)).Nodup := by
    unfold timeProjection at h
    cases hda : dataPointsAux scores with
    | none => rw [hda] at h; exact Option.noConfusion h
    | some l =>
        rw [hda] at h
        cases l with
        | nil => exact Option.noConfusion h
        | cons a l' =>
            change (if ((a :: l').map fun p => (p.2.1, p.1)).Nodup
                then some (a :: l') else none) = some dps at h
            by_cases hnd : ((a :: l').map fun p => (p.2.1, p.1)).Nodup
            · rw [if_pos hnd] at h
              have hdl : a :: l' = dps := Option.some_inj.mp h
              subst hdl
              exact ⟨rfl, hnd⟩
            · rw [if_neg hnd] at h
              exact Option.noConfusion h
  refine ⟨dataPointsAux_some scores dps hshape.1, ?_, ?_⟩
  · intro p hp
    exact pivotCell_eq_some dps hshape.2 p hp
  · intro hr d
    exact pivotCell_eq_none_iff dps hr d

theorem c8_pivot_cells_witness :
    [("2024-06-01", (9 : Int), (1 : ℚ))]
      = [(Json.str "2024-06-01-9", (1 : ℚ))].filterMap pointOf
    ∧ (∀ p ∈ [("2024-06-01", (9 : Int), (1 : ℚ))],
        pivotCell [("2024-06-01", (9 : Int), (1 : ℚ))] p.2.1 p.1 = some p.2.2)
    ∧ (∀ hr d, pivotCell [("2024-06-01", (9 : Int), (1 : ℚ))] hr d = none ↔
        ∀ p ∈ [("2024-06-01", (9 : Int), (1 : ℚ))], ¬ (p.2.1 = hr ∧ p.1 = d)) :=
  c8_pivot_cells [(Json.str "2024-06-01-9", (1 : ℚ))]
    [("2024-06-01", (9 : Int), (1 : ℚ))]
    (by norm_num +decide [timeProjection, dataPointsAux, splitDash, splitChars,
      pyInt, decNatAux, decDigit, List.getLastD, joinDash])

/-! ### Claims about the store endpoints -/

/-- C7: a submit call stores the fresh two-field wrapper under the
participant key wholesale (the stored value does not depend on any previous
entry: last-write-wins, no partial merge), and leaves every other
participant's entry, every other event field and every other event
unchanged. -/
theorem c7_submit_frame (db : List (String × Json)) (data : Json)
    (e : String) (fields vs : List (String × Json))
    (he : jget data "eventId" = some (Json.str e))
    (hev : objGet db e = some (Json.obj fields))
    (hvs : objGet fields "votes" = some (Json.obj vs)) :
    (submit_availability db data).2 = SubmitOut.success
    ∧ (∀ e', e' ≠ e → objGet (submit_availability db data).1 e' = objGet db e')
    ∧ (∃ fields',
        objGet (submit_availability db data).1 e = some (Json.obj fields')
        ∧ (∀ k, k ≠ "votes" → objGet fields' k = objGet fields k)
        ∧ (∃ vs', objGet fields' "votes" = some (Json.obj vs')
            ∧ objGet vs' (pyStr (jgetD data "userId" Json.null))
                = some (Json.obj [("slots", jgetD data "slots" Json.null),
                                  ("username", jgetD data "username" Json.null)])
            ∧ ∀ u, u ≠ pyStr (jgetD data "userId" Json.null) →
                objGet vs' u = objGet vs u)) := by
  have hsub : submit_availability db data
      = (objSet db e (Json.obj (objSet fields "votes" (Json.obj (objSet vs
          (pyStr (jgetD data "userId" Json.null))
          (Json.obj [("slots", jgetD data "slots" Json.null),
                     ("username", jgetD data "username" Json.null)]))))),
         SubmitOut.success) := by
    simp only [submit_availability, he, hev, hvs]
  rw [hsub]
  refine ⟨rfl, ?_, ?_⟩
  · intro e' hne
    exact objGet_objSet_other db e e' _ hne
  · refine ⟨objSet fields "votes" (Json.obj (objSet vs
        (pyStr (jgetD data "userId" Json.null))
        (Json.obj [("slots", jgetD data "slots" Json.null),
                   ("username", jgetD data "username" Json.null)]))),
      objGet_objSet_same db e _, ?_, ?_⟩
    · intro k hk
      exact objGet_objSet_other fields "votes" k _ hk
    · exact ⟨objSet vs (pyStr (jgetD data "userId" Json.null))
          (Json.obj [("slots", jgetD data "slots" Json.null),
                     ("username", jgetD data "username" Json.null)]),
        objGet_objSet_same fields "votes" _, objGet_objSet_same vs _ _,
        fun u hu => objGet_objSet_other vs _ u _ hu⟩

theorem c7_submit_frame_witness :
    (submit_availability
        [("E", Json.obj [("name", Json.str "N"),
          ("votes", Json.obj [("7", Json.str "old")])])]
        (Json.obj [("eventId", Json.str "E"), ("userId", Json.num 7),
          ("username", Json.str "alice"),
          ("slots", Json.arr [Json.str "0-9"])])).2 = SubmitOut.success
    ∧ (∀ e', e' ≠ "E" → objGet (submit_availability
        [("E", Json.obj [("name", Json.str "N"),
          ("votes", Json.obj [("7", Json.str "old")])])]
        (Json.obj [("eventId", Json.str "E"), ("userId", Json.num 7),
          ("username", Json.str "alice"),
          ("slots", Json.arr [Json.str "0-9"])])).1 e'
        = objGet [("E", Json.obj [("name", Json.str "N"),
            ("votes", Json.obj [("7", Json.str "old")])])] e')
    ∧ (∃ fields',
        objGet (submit_availability
          [("E", Json.obj [("name", Json.str "N"),
            ("votes", Json.obj [("7", Json.str "old")])])]
          (Json.obj [("eventId", Json.str "E"), ("userId", Json.num 7),
            ("username", Json.str "alice"),
            ("slots", Json.arr [Json.str "0-9"])])).1 "E"
          = some (Json.obj fields')
        ∧ (∀ k, k ≠ "votes" → objGet fields' k
            = objGet [("name", Json.str "N"),
                ("votes", Json.obj [("7", Json.str "old")])] k)
        ∧ (∃ vs', objGet fields' "votes" = some (Json.obj vs')
            ∧ objGet vs' (pyStr (jgetD
                (Json.obj [("eventId", Json.str "E"), ("userId", Json.num 7),
                  ("username", Json.str "alice"),
                  ("slots", Json.arr [Json.str "0-9"])]) "userId" Json.null))
                = some (Json.obj [("slots", jgetD
                    (Json.obj [("eventId", Json.str "E"), ("userId", Json.num 7),
                      ("username", Json.str "alice"),
                      ("slots", Json.arr [Json.str "0-9"])]) "slots" Json.null),
                  ("username", jgetD
                    (Json.obj [("eventId", Json.str "E"), ("userId", Json.num 7),
                      ("username", Json.str "alice"),
                      ("slots", Json.arr [Json.str "0-9"])]) "username" Json.null)])
            ∧ ∀ u, u ≠ pyStr (jgetD
                (Json.obj [("eventId", Json.str "E"), ("userId", Json.num 7),
                  ("username", Json.str "alice"),
                  ("slots", Json.arr [Json.str "0-9"])]) "userId" Json.null) →
                objGet vs' u = objGet [("7", Json.str "old")] u)) :=
  c7_submit_frame
    [("E", Json.obj [("name", Json.str "N"),
      ("votes", Json.obj [("7", Json.str "old")])])]
    (Json.obj [("eventId", Json.str "E"), ("userId", Json.num 7),
      ("username", Json.str "alice"), ("slots", Json.arr [Json.str "0-9"])])
    "E" [("name", Json.str "N"), ("votes", Json.obj [("7", Json.str "old")])]
    [("7", Json.str "old")]
    (by decide) (by decide) (by decide)

/-- C10: the creation endpoint stores the new event with an empty votes
mapping, and every successful submit stores under the participant key —
a string by construction, since the code applies `str(...)` — a wrapper
object with exactly the two keys "slots" and "username", so every
submission that passes the intake boundary has the wrapped shape. -/
theorem c10_intake_shape (db1 : List (String × Json)) (data1 : Json)
    (eid : String) (db2 : List (String × Json)) (data2 : Json) (e : String)
    (fields vs : List (String × Json))
    (hchat : pyFalsy (jgetD data1 "chat_id" Json.null) = false)
    (he : jget data2 "eventId" = some (Json.str e))
    (hev : objGet db2 e = some (Json.obj fields))
    (hvs : objGet fields "votes" = some (Json.obj vs)) :
    (∃ fs, objGet (create_event db1 data1 eid).1 eid = some (Json.obj fs)
        ∧ objGet fs "votes" = some (Json.obj []))
    ∧ (submit_availability db2 data2).2 = SubmitOut.success
    ∧ (∃ fs' vs',
        objGet (submit_availability db2 data2).1 e = some (Json.obj fs')
        ∧ objGet fs' "votes" = some (Json.obj vs')
        ∧ objGet vs' (pyStr (jgetD data2 "userId" Json.null))
            = some (Json.obj [("slots", jgetD data2 "slots" Json.null),
                              ("username", jgetD data2 "username" Json.null)])
        ∧ ([("slots", jgetD data2 "slots" Json.null),
            ("username", jgetD data2 "username" Json.null)].map Prod.fst)
            = ["slots", "username"]) := by
  refine ⟨?_, ?_⟩
  · simp only [create_event, hchat, Bool.false_eq_true, if_false]
    exact ⟨_, objGet_objSet_same _ eid _, by norm_num +decide [objGet]⟩
  · have hsub : submit_availability db2 data2
        = (objSet db2 e (Json.obj (objSet fields "votes" (Json.obj (objSet vs
            (pyStr (jgetD data2 "userId" Json.null))
            (Json.obj [("slots", jgetD data2 "slots" Json.null),
                       ("username", jgetD data2 "username" Json.null)]))))),
           SubmitOut.success) := by
      simp only [submit_availability, he, hev, hvs]
    rw [hsub]
    exact ⟨rfl, _, _, objGet_objSet_same _ e _, objGet_objSet_same _ "votes" _,
      objGet_objSet_same vs _ _, rfl⟩

theorem c10_intake_shape_witness :
    (∃ fs, objGet (create_event []
        (Json.obj [("chat_id", Json.str "c")]) "E0").1 "E0"
        = some (Json.obj fs)
      ∧ objGet fs "votes" = some (Json.obj []))
    ∧ (submit_availability [("E", Json.obj [("votes", Json.obj [])])]
        (Json.obj [("eventId", Json.str "E"), ("userId", Json.num 7),
          ("username", Json.str "alice"),
          ("slots", Json.obj [("0-9", Json.str "yes")])])).2 = SubmitOut.success
    ∧ (∃ fs' vs',
        objGet (submit_availability [("E", Json.obj [("votes", Json.obj [])])]
          (Json.obj [("eventId", Json.str "E"), ("userId", Json.num 7),
            ("username", Json.str "alice"),
            ("slots", Json.obj [("0-9", Json.str "yes")])])).1 "E"
          = some (Json.obj fs')
        ∧ objGet fs' "votes" = some (Json.obj vs')
        ∧ objGet vs' (pyStr (jgetD
            (Json.obj [("eventId", Json.str "E"), ("userId", Json.num 7),
              ("username", Json.str "alice"),
              ("slots", Json.obj [("0-9", Json.str "yes")])]) "userId" Json.null))
            = some (Json.obj [("slots", jgetD
                (Json.obj [("eventId", Json.str "E"), ("userId", Json.num 7),
                  ("username", Json.str "alice"),
                  ("slots", Json.obj [("0-9", Json.str "yes")])]) "slots" Json.null),
              ("username", jgetD
                (Json.obj [("eventId", Json.str "E"), ("userId", Json.num 7),
                  ("username", Json.str "alice"),
                  ("slots", Json.obj [("0-9", Json.str "yes")])]) "username" Json.null)])
        ∧ ([("slots", jgetD
              (Json.obj [("eventId", Json.str "E"), ("userId", Json.num 7),
                ("username", Json.str "alice"),
                ("slots", Json.obj [("0-9", Json.str "yes")])]) "slots" Json.null),
            ("username", jgetD
              (Json.obj [("eventId", Json.str "E"), ("userId", Json.num 7),
                ("username", Json.str "alice"),
                ("slots", Json.obj [("0-9", Json.str "yes")])]) "username" Json.null)].map
            Prod.fst)
            = ["slots", "username"]) :=
  c10_intake_shape [] (Json.obj [("chat_id", Json.str "c")]) "E0"
    [("E", Json.obj [("votes", Json.obj [])])]
    (Json.obj [("eventId", Json.str "E"), ("userId", Json.num 7),
      ("username", Json.str "alice"),
      ("slots", Json.obj [("0-9", Json.str "yes")])])
    "E" [("votes", Json.obj [])] []
    (by decide) (by decide) (by decide) (by decide)

/-- C6 counterexample: starting from a store holding the draft record
`setup_S`, promoting twice with the same setup id (fresh event ids E1 then
E2) makes the second call return ok "E2" — a success, never a NotFound
error — and the final store holds two events, E1 and E2. -/
theorem c6_counterexample :
    (create_event (create_event [("setup_S", Json.arr [Json.str "@a"])]
        (Json.obj [("chat_id", Json.str "c"), ("setup_id", Json.str "S")])
        "E1").1
      (Json.obj [("chat_id", Json.str "c"), ("setup_id", Json.str "S")])
      "E2").2 = Except.ok "E2"
    ∧ (∀ msg, (create_event (create_event [("setup_S", Json.arr [Json.str "@a"])]
        (Json.obj [("chat_id", Json.str "c"), ("setup_id", Json.str "S")])
        "E1").1
      (Json.obj [("chat_id", Json.str "c"), ("setup_id", Json.str "S")])
      "E2").2 ≠ Except.error msg)
    ∧ (objGet (create_event (create_event [("setup_S", Json.arr [Json.str "@a"])]
        (Json.obj [("chat_id", Json.str "c"), ("setup_id", Json.str "S")])
        "E1").1
      (Json.obj [("chat_id", Json.str "c"), ("setup_id", Json.str "S")])
      "E2").1 "E1").isSome
    ∧ (objGet (create_event (create_event [("setup_S", Json.arr [Json.str "@a"])]
        (Json.obj [("chat_id", Json.str "c"), ("setup_id", Json.str "S")])
        "E1").1
      (Json.obj [("chat_id", Json.str "c"), ("setup_id", Json.str "S")])
      "E2").1 "E2").isSome := by
  refine ⟨?_, ?_, ?_, ?_⟩
  · norm_num +decide [create_event, jgetD, jget, objGet, objSet, objDel,
      pyFalsy, pyStr]
  · intro msg
    norm_num +decide [create_event, jgetD, jget, objGet, objSet, objDel,
      pyFalsy, pyStr]
    exact fun h => Except.noConfusion h
  · norm_num +decide [create_event, jgetD, jget, objGet, objSet, objDel,
      pyFalsy, pyStr]
  · norm_num +decide [create_event, jgetD, jget, objGet, objSet, objDel,
      pyFalsy, pyStr]

/-- C6 (amended): promoting deletes the draft record, but a second
promotion attempt using the same, now-missing draft key does not return a
NotFound failure: it succeeds with a fresh event id, creating a second
event (with empty required participants) while the first event remains —
key removal prevents re-reading the draft, not duplicate event creation. -/
theorem c6_double_promotion (db : List (String × Json)) (data : Json)
    (sid e1 e2 : String) (draft : Json)
    (hnd : (db.map Prod.fst).Nodup)
    (hchat : pyFalsy (jgetD data "chat_id" Json.null) = false)
    (hsid : jgetD data "setup_id" Json.null = Json.str sid)
    (hs0 : sid ≠ "")
    (hdraft : objGet db ("setup_" ++ sid) = some draft)
    (he1 : e1 ≠ "setup_" ++ sid) (he12 : e2 ≠ e1) :
    (create_event db data e1).2 = Except.ok e1
    ∧ objGet (create_event db data e1).1 ("setup_" ++ sid) = none
    ∧ (create_event (create_event db data e1).1 data e2).2 = Except.ok e2
    ∧ (∃ fs, objGet (create_event (create_event db data e1).1 data e2).1 e2
          = some (Json.obj fs)
        ∧ objGet fs "required_participants" = some (Json.arr []))
    ∧ objGet (create_event (create_event db data e1).1 data e2).1 e1
        = objGet (create_event db data e1).1 e1 := by
  have hfalsy : pyFalsy (Json.str sid) = false := by
    simp [pyFalsy, hs0]
  have hred1 : create_event db data e1
      = (objSet (objDel db ("setup_" ++ sid)) e1
          (Json.obj [("name", jgetD data "name" (Json.str "New Event")),
            ("mode", jgetD data "mode" (Json.str "time")),
            ("start_date", jgetD data "start_date" Json.null),
            ("end_date", jgetD data "end_date" Json.null),
            ("chat_id", jgetD data "chat_id" Json.null),
            ("required_participants", draft),
            ("votes", Json.obj [])]), Except.ok e1) := by
    simp only [create_event, hchat, hsid, hfalsy, pyStr, hdraft,
      Bool.false_eq_true, if_false]
  have hgone : objGet (create_event db data e1).1 ("setup_" ++ sid) = none := by
    rw [hred1]
    rw [objGet_objSet_other _ e1 _ _ (Ne.symm he1)]
    exact objGet_objDel_same db _ hnd
  have hred2 : create_event (create_event db data e1).1 data e2
      = (objSet (create_event db data e1).1 e2
          (Json.obj [("name", jgetD data "name" (Json.str "New Event")),
            ("mode", jgetD data "mode" (Json.str "time")),
            ("start_date", jgetD data "start_date" Json.null),
            ("end_date", jgetD data "end_date" Json.null),
            ("chat_id", jgetD data "chat_id" Json.null),
            ("required_participants", Json.arr []),
            ("votes", Json.obj [])]), Except.ok e2) := by
    conv_lhs => rw [create_event]
    simp only [hchat, hsid, hfalsy, pyStr, hgone, Bool.false_eq_true, if_false]
  refine ⟨by rw [hred1], hgone, by rw [hred2], ?_, ?_⟩
  · rw [hred2]
    exact ⟨_, objGet_objSet_same _ e2 _, by norm_num +decide [objGet]⟩
  · rw [hred2]
    exact objGet_objSet_other _ e2 e1 _ (Ne.symm he12)

theorem c6_double_promotion_witness :
    (create_event [("setup_S", Json.arr [Json.str "@a"])]
        (Json.obj [("chat_id", Json.str "c"), ("setup_id", Json.str "S")])
        "E1").2 = Except.ok "E1"
    ∧ objGet (create_event [("setup_S", Json.arr [Json.str "@a"])]
        (Json.obj [("chat_id", Json.str "c"), ("setup_id", Json.str "S")])
        "E1").1 ("setup_" ++ "S") = none
    ∧ (create_event (create_event [("setup_S", Json.arr [Json.str "@a"])]
        (Json.obj [("chat_id", Json.str "c"), ("setup_id", Json.str "S")])
        "E1").1
        (Json.obj [("chat_id", Json.str "c"), ("setup_id", Json.str "S")])
        "E2").2 = Except.ok "E2"
    ∧ (∃ fs, objGet (create_event (create_event
          [("setup_S", Json.arr [Json.str "@a"])]
          (Json.obj [("chat_id", Json.str "c"), ("setup_id", Json.str "S")])
          "E1").1
          (Json.obj [("chat_id", Json.str "c"), ("setup_id", Json.str "S")])
          "E2").1 "E2" = some (Json.obj fs)
        ∧ objGet fs "required_participants" = some (Json.arr []))
    ∧ objGet (create_event (create_event
          [("setup_S", Json.arr [Json.str "@a"])]
          (Json.obj [("chat_id", Json.str "c"), ("setup_id", Json.str "S")])
          "E1").1
          (Json.obj [("chat_id", Json.str "c"), ("setup_id", Json.str "S")])
          "E2").1 "E1"
        = objGet (create_event [("setup_S", Json.arr [Json.str "@a"])]
            (Json.obj [("chat_id", Json.str "c"), ("setup_id", Json.str "S")])
            "E1").1 "E1" :=
  c6_double_promotion [("setup_S", Json.arr [Json.str "@a"])]
    (Json.obj [("chat_id", Json.str "c"), ("setup_id", Json.str "S")])
    "S" "E1" "E2" (Json.arr [Json.str "@a"])
    (by decide) (by decide) (by decide) (by decide) (by decide) (by decide)
    (by decide)

end Meetbot
